import Mathlib

/-!
Verification of the k8s-doc-mcp documentation server.

This file shallowly embeds the core of the repository:
* `fetch_url`, `get_cache_path`, `html_to_markdown`, `read_documentation`
  from `src/tools/kubernetes/documentation.py`;
* `handle_tool_call` from `src/run_server.py`.

Python strings are modelled as Lean `String` (a list of characters),
Python integers as `Int`, raised exceptions as `Except String`,
and the filesystem cache plus the network as explicit state.
-/

namespace K8sDoc

/-- Python `s.startswith(p)` for a single prefix string. -/
def strStartsWith (s p : String) : Bool := p.data.isPrefixOf s.data

/-- Normalisation of one Python slice bound against a string of length `n`:
negative indices count from the end, and bounds are clamped into `[0, n]`. -/
def pyNorm (n : Nat) (i : Int) : Nat :=
  if i < 0 then (max ((n : Int) + i) 0).toNat else min i.toNat n

/-- Python slice `s[i:j]` with full Python semantics (negative and
out-of-range bounds allowed, empty result when the normalised start is
at or past the normalised end). -/
def pySlice (s : String) (i j : Int) : String :=
  let n := s.data.length
  let a := pyNorm n i
  let b := pyNorm n j
  ⟨(s.data.drop a).take (b - a)⟩

/-- Python `\w` on the ASCII characters appearing in URLs:
letters, digits and underscore. -/
def isWordChar (c : Char) : Bool := c.isAlphanum || c = '_'

/-- `get_cache_path` (documentation.py lines 37-41): replace every
non-word character of the URL by `_` and append `.html`.  We model only
the file name (the constant cache directory prefix is common to all keys
and irrelevant to key collisions). -/
def get_cache_path (url : String) : String :=
  String.mk (url.data.map (fun c => if isWordChar c then c else '_')) ++ ".html"

/-- `USE_CACHE` constant (documentation.py line 30). -/
def USE_CACHE : Bool := true

/-- The state `fetch_url` interacts with: the cache directory, modelled
as an association list from cache file name to stored file content
(most recent write first), and the log of network requests performed,
in order. -/
structure FetchState where
  cache : List (String × String)
  netCalls : List String
deriving Repr, DecidableEq

/-- `os.path.exists` + reading the cache file: first (most recent)
entry stored under `key`, if any. -/
def lookupCache (key : String) : List (String × String) → Option String
  | [] => none
  | kv :: rest => if kv.1 = key then some kv.2 else lookupCache key rest

/-- `fetch_url` (documentation.py lines 43-71).  `net` models a
successful `requests.get(url).text`; a raised `ValueError` is modelled
as `Except.error` carrying `str(e)`.  On a cache hit the state is
unchanged (no network I/O); on a miss the response body is fetched,
written to the cache, and the request is logged in `netCalls`. -/
def fetch_url (net : String → String) (url : String) (st : FetchState) :
    Except String (String × FetchState) :=
  if !(strStartsWith url "https://kubernetes.io" || strStartsWith url "http://kubernetes.io") then
    .error ("URL must be from kubernetes.io domain: " ++ url)
  else
    match (if USE_CACHE then lookupCache (get_cache_path url) st.cache else none) with
    | some content => .ok (content, st)
    | none =>
        let content := net url
        if USE_CACHE then
          .ok (content, ⟨(get_cache_path url, content) :: st.cache, st.netCalls ++ [url]⟩)
        else
          .ok (content, ⟨st.cache, st.netCalls ++ [url]⟩)

/-! ## HTML-to-Markdown normaliser (documentation.py lines 73-129)

`html_to_markdown` is a chain of `re.sub` / `str.replace` passes over the
page text.  We model one global left-to-right substitution pass by
`subPat`: a matcher `m` is tried at every position; on a match it returns
the replacement text and the remainder of the input after the match (the
replacement is never rescanned, as with `re.sub`).  All matchers below
consume at least one character on success, so fuel equal to the input
length always suffices.

The initial BeautifulSoup stage (removing `nav, footer, script, style,
.js-toolbar-action` elements and selecting `main`/`article`/`body`) is the
identity on inputs that contain none of those elements — which covers
every input considered in this file — so it is modelled as the identity. -/

/-- One global substitution pass driven by matcher `m`
(the model of `re.sub(pattern, repl, s)` / `str.replace`). -/
def subPatFuel (m : List Char → Option (List Char × List Char)) :
    Nat → List Char → List Char
  | _, [] => []
  | 0, s => s
  | fuel + 1, c :: cs =>
      match m (c :: cs) with
      | some p => p.1 ++ subPatFuel m fuel p.2
      | none => c :: subPatFuel m fuel cs

/-- Global substitution over a whole string. -/
def subPat (m : List Char → Option (List Char × List Char)) (s : List Char) :
    List Char :=
  subPatFuel m s.length s

/-- The regex fragment `[^>]*>`: consume the (unique) run of non-`>`
characters and the following `>`, returning the remainder; fail if no
`>` occurs. -/
def dropTag : List Char → Option (List Char)
  | [] => none
  | c :: cs => if c = '>' then some cs else dropTag cs

/-- The regex fragment `(.*?)close` under `re.DOTALL`: the shortest
(lazy) content before the first occurrence of `close`, together with the
remainder after `close`; fail if `close` does not occur. -/
def takeLazy (close : List Char) : List Char → Option (List Char × List Char)
  | [] => none
  | c :: cs =>
      if close.isPrefixOf (c :: cs) then some ([], (c :: cs).drop close.length)
      else
        match takeLazy close cs with
        | some p => some (c :: p.1, p.2)
        | none => none

/-- Match of `opn[^>]*>(.*?)close` at the start of `s`, returning the
captured group and the remainder. -/
def matchTag (opn close : List Char) (s : List Char) :
    Option (List Char × List Char) :=
  if opn.isPrefixOf s then
    match dropTag (s.drop opn.length) with
    | some r1 => takeLazy close r1
    | none => none
  else none

/-- `re.sub(opn + "[^>]*>(.*?)" + close, mk, s)` with replacement built
from the captured group by `mk`. -/
def tagSub (opn close : List Char) (mk : List Char → List Char)
    (s : List Char) : List Char :=
  subPat (fun s => (matchTag opn close s).map (fun p => (mk p.1, p.2))) s

/-- One heading pass: `re.sub('<h{i}[^>]*>(.*?)</h{i}>', '#'*i + ' \1\n\n', s)`
with `re.DOTALL` (documentation.py lines 93-96). -/
def headingPass (i : Nat) (s : List Char) : List Char :=
  tagSub ("<h" ++ toString i).data ("</h" ++ toString i ++ ">").data
    (fun t => List.replicate i '#' ++ ' ' :: (t ++ ['\n', '\n'])) s

/-- Paragraph pass (line 99): `<p[^>]*>(.*?)</p>` → `\1\n\n`. -/
def pPass (s : List Char) : List Char :=
  tagSub "<p".data "</p>".data (fun t => t ++ ['\n', '\n']) s

/-- The maximal run of non-`>` characters at the front, and the rest. -/
def maxNonGt : List Char → List Char × List Char
  | [] => ([], [])
  | c :: cs =>
      if c = '>' then ([], c :: cs)
      else
        let p := maxNonGt cs
        (c :: p.1, p.2)

/-- The forced tail of the link pattern after the first greedy group:
`href="([^"]*)"[^>]*>(.*?)</a>`.  Each remaining piece is forced (a
negated character class followed by its delimiter, then a lazy group up
to the literal `</a>`), so no further backtracking occurs.  Returns the
replacement `[\2](\1)` and the remainder. -/
def linkAfterA (r : List Char) : Option (List Char × List Char) :=
  if "href=\"".data.isPrefixOf r then
    match takeLazy ['"'] (r.drop 6) with
    | some hp =>
        match dropTag hp.2 with
        | some r3 =>
            match takeLazy "</a>".data r3 with
            | some cp =>
                some ('[' :: cp.1 ++ ']' :: '(' :: hp.1 ++ [')'], cp.2)
            | none => none
        | none => none
    | none => none
  else none

/-- Backtracking over the greedy `[^>]*` before `href="` in the link
pattern: try the longest candidate first (`Arev` holds the not-yet-
relinquished attribute characters in reverse), then move characters back
one at a time. -/
def linkBT : List Char → List Char → Option (List Char × List Char)
  | [], r => linkAfterA r
  | x :: arev, r =>
      match linkAfterA r with
      | some res => some res
      | none => linkBT arev (x :: r)

/-- Match of `<a[^>]*href="([^"]*)"[^>]*>(.*?)</a>` at the start of `s`
(line 102), returning the replacement `[\2](\1)` and the remainder. -/
def matchLink (s : List Char) : Option (List Char × List Char) :=
  if "<a".data.isPrefixOf s then
    let p := maxNonGt (s.drop 2)
    linkBT p.1.reverse p.2
  else none

/-- Link pass (line 102). -/
def linkPass (s : List Char) : List Char := subPat matchLink s

/-- List passes (lines 105-107). -/
def ulPass (s : List Char) : List Char :=
  tagSub "<ul".data "</ul>".data (fun t => t ++ ['\n']) s

def olPass (s : List Char) : List Char :=
  tagSub "<ol".data "</ol>".data (fun t => t ++ ['\n']) s

def liPass (s : List Char) : List Char :=
  tagSub "<li".data "</li>".data (fun t => '-' :: ' ' :: (t ++ ['\n'])) s

/-- Match of `<pre[^>]*><code[^>]*>(.*?)</code></pre>` (line 110),
returning the fenced-code replacement and the remainder. -/
def matchPre (s : List Char) : Option (List Char × List Char) :=
  if "<pre".data.isPrefixOf s then
    match dropTag (s.drop 4) with
    | some r1 =>
        if "<code".data.isPrefixOf r1 then
          match dropTag (r1.drop 5) with
          | some r2 =>
              match takeLazy "</code></pre>".data r2 with
              | some tp =>
                  some ("```\n".data ++ tp.1 ++ "\n```\n\n".data, tp.2)
              | none => none
          | none => none
        else none
    | none => none
  else none

/-- Fenced code-block pass (line 110). -/
def prePass (s : List Char) : List Char := subPat matchPre s

/-- Inline code pass (line 111). -/
def codePass (s : List Char) : List Char :=
  tagSub "<code".data "</code>".data (fun t => "`".data ++ t ++ "`".data) s

/-- Bold and italic passes (lines 114-115). -/
def strongPass (s : List Char) : List Char :=
  tagSub "<strong".data "</strong>".data (fun t => "**".data ++ t ++ "**".data) s

def emPass (s : List Char) : List Char :=
  tagSub "<em".data "</em>".data (fun t => '*' :: (t ++ ['*'])) s

/-- Match of `<br[^>]*>` (line 118), replaced by a newline. -/
def matchBr (s : List Char) : Option (List Char × List Char) :=
  if "<br".data.isPrefixOf s then
    match dropTag (s.drop 3) with
    | some r => some (['\n'], r)
    | none => none
  else none

/-- Line-break pass (line 118). -/
def brPass (s : List Char) : List Char := subPat matchBr s

/-- Match of `<[^>]*>` (line 121), replaced by nothing. -/
def matchAnyTag : List Char → Option (List Char × List Char)
  | '<' :: cs =>
      match dropTag cs with
      | some r => some ([], r)
      | none => none
  | _ => none

/-- Tag stripping pass (line 121). -/
def stripTags (s : List Char) : List Char := subPat matchAnyTag s

/-- Literal match of `pat`, replaced by `repl` (the model of one
`str.replace` occurrence). -/
def matchLit (pat repl : List Char) (s : List Char) :
    Option (List Char × List Char) :=
  if pat.isPrefixOf s then some (repl, s.drop pat.length) else none

/-- Python `s.replace(pat, repl)` (left-to-right, non-overlapping). -/
def replaceAll (pat repl : List Char) (s : List Char) : List Char :=
  subPat (matchLit pat repl) s

/-- Entity decoding (line 124): `&lt;` then `&gt;` then `&amp;`. -/
def entityPass (s : List Char) : List Char :=
  replaceAll "&amp;".data "&".data
    (replaceAll "&gt;".data ">".data (replaceAll "&lt;".data "<".data s))

/-- The run of newlines at the front of `s`, and the rest. -/
def nlRun : List Char → Nat × List Char
  | [] => (0, [])
  | c :: cs =>
      if c = '\n' then
        let p := nlRun cs
        (p.1 + 1, p.2)
      else (0, c :: cs)

/-- Match of `\n{3,}` (greedy, line 127), replaced by two newlines. -/
def matchNl3 (s : List Char) : Option (List Char × List Char) :=
  let p := nlRun s
  if 3 ≤ p.1 then some (['\n', '\n'], p.2) else none

/-- Blank-line collapsing pass (line 127). -/
def collapseNl (s : List Char) : List Char := subPat matchNl3 s

/-- `html_to_markdown` (documentation.py lines 73-129): the ordered
substitution chain of lines 90-127, applied to the page text (the
BeautifulSoup preprocessing is the identity for the inputs considered
here, as explained above). -/
def html_to_markdown (html : String) : String :=
  let s1 := [6, 5, 4, 3, 2, 1].foldl (fun acc i => headingPass i acc) html.data
  let s2 := pPass s1
  let s3 := linkPass s2
  let s4 := liPass (olPass (ulPass s3))
  let s5 := codePass (prePass s4)
  let s6 := emPass (strongPass s5)
  let s7 := brPass s6
  let s8 := stripTags s7
  let s9 := entityPass s8
  String.mk (collapseNl s9)

/-! ## `read_documentation` (documentation.py lines 131-181) -/

/-- Python `s.split('/')`: the `/`-separated segments of `s`, always a
non-empty list (a trailing separator yields a final empty segment). -/
def pySplitSlash : List Char → List (List Char)
  | [] => [[]]
  | c :: cs =>
      let r := pySplitSlash cs
      if c = '/' then [] :: r
      else (c :: r.headD []) :: r.tail

/-- The (non-error) response dictionary built by `read_documentation`
(documentation.py lines 167-175). -/
structure DocumentationResult where
  title : String
  url : String
  content : String
  start_index : Int
  end_index : Int
  total_length : Int
  is_truncated : Bool
deriving Repr, DecidableEq

/-- The pagination step of `read_documentation` (documentation.py lines
161-174): window, `end_index`, `total_length`, `is_truncated`. -/
def paginate (text : String) (start_index max_length : Int) :
    String × Int × Int × Bool :=
  let total : Int := text.data.length
  let e : Int := min (start_index + max_length) total
  (pySlice text start_index e, e, total, decide (e < total))

/-- `read_documentation` (documentation.py lines 131-181).  `net` models
the network as in `fetch_url`; `titleOf` models
`BeautifulSoup(html).title.string` — `some t` when the document has a
title element with text `t`, `none` when it has none, in which case the
code falls back to `url.split('/')[-1]`.  The surrounding
`try/except` turns the `ValueError` raised by `fetch_url` into the
`{"error": str(e)}` dictionary, modelled as `Except.error`. -/
def read_documentation (net : String → String) (titleOf : String → Option String)
    (url : String) (max_length : Int) (start_index : Int) (st : FetchState) :
    Except String DocumentationResult × FetchState :=
  if !(strStartsWith url "https://kubernetes.io/docs" ||
        strStartsWith url "http://kubernetes.io/docs") then
    (.error "URL must be from kubernetes.io/docs domain", st)
  else
    match fetch_url net url st with
    | .error e => (.error e, st)
    | .ok (html, st1) =>
        let md := html_to_markdown html
        let title :=
          match titleOf html with
          | some t => t
          | none => String.mk ((pySplitSlash url.data).getLastD [])
        let p := paginate md start_index max_length
        (.ok { title := title, url := url, content := p.1,
               start_index := start_index, end_index := p.2.1,
               total_length := p.2.2.1, is_truncated := p.2.2.2 }, st1)

/-! ## Tool registry and dispatcher (run_server.py lines 56-137) -/

/-- `ToolParameter` model (run_server.py lines 56-58). -/
structure ToolParameter (V : Type) where
  name : String
  value : V
deriving Repr, DecidableEq

/-- `ToolCall` model (run_server.py lines 60-62). -/
structure ToolCall (V : Type) where
  name : String
  parameters : List (ToolParameter V)
deriving Repr, DecidableEq

/-- `ToolResponseItem` model (run_server.py lines 67-70): `output` is
`none` for Python `None`, `error` defaults to `None`. -/
structure ToolResponseItem (O : Type) where
  tool_name : String
  output : Option O
  error : Option String
deriving Repr, DecidableEq

/-- The dict comprehension `{param.name: param.value for param in
tool_call.parameters}` (run_server.py line 121), as a lookup function:
a later parameter with the same name overwrites an earlier one. -/
def paramsDict {V : Type} (ps : List (ToolParameter V)) (k : String) : Option V :=
  ps.foldl (fun acc p => if p.name = k then some p.value else acc) none

/-- The body of the dispatch loop of `handle_tool_call` (run_server.py
lines 109-135): the single response appended for one tool call.  A
registered tool takes the parameter dictionary and either returns a
value or raises an exception with message `e` (modelled by `Except`). -/
def dispatchOne {V O : Type}
    (tool_registry : String → Option ((String → Option V) → Except String O))
    (c : ToolCall V) : ToolResponseItem O :=
  match tool_registry c.name with
  | none => ⟨c.name, none, some ("Tool '" ++ c.name ++ "' not found")⟩
  | some f =>
      match f (paramsDict c.parameters) with
      | .ok v => ⟨c.name, some v, none⟩
      | .error e => ⟨c.name, none, some e⟩

/-- `handle_tool_call` (run_server.py lines 105-137): one response per
call, in call order.  The module-global `tool_registry` is passed
explicitly. -/
def handle_tool_call {V O : Type}
    (tool_registry : String → Option ((String → Option V) → Except String O))
    (tool_calls : List (ToolCall V)) : List (ToolResponseItem O) :=
  tool_calls.map (dispatchOne tool_registry)

/-! ## Spec-side definition used to state claims about URL hosts -/

/-- Built from the specification, not from the code (which has no URL
parser): the host component of a URL under standard `scheme://authority/path`
parsing — the authority is what precedes the first `/` after `://`, and the
host is the part of the authority after any `@` userinfo and before any `:`
port.  Used only to compare the spec's host-based wording with the code's
prefix checks. -/
def specUrlHost (url : String) : String :=
  match takeLazy "://".data url.data with
  | some p =>
      let auth := p.2.takeWhile (fun c => c ≠ '/')
      let afterAt := (auth.reverse.takeWhile (fun c => c ≠ '@')).reverse
      String.mk (afterAt.takeWhile (fun c => c ≠ ':'))
  | none => ""

/-- A concrete three-tool registry used as the dispatch example: tool
`A` succeeds with `"ra"`, tool `B` raises an exception with message
`"boom"`, tool `C` succeeds with `"rc"`; every other name is
unregistered. -/
def regEx : String → Option ((String → Option Nat) → Except String String) :=
  fun n =>
    if n = "A" then some (fun _ => .ok "ra")
    else if n = "B" then some (fun _ => .error "boom")
    else if n = "C" then some (fun _ => .ok "rc")
    else none

/-! ## Helper lemmas -/

theorem lookupCache_cons_self (key v : String) (rest : List (String × String)) :
    lookupCache key ((key, v) :: rest) = some v := by
  simp [lookupCache]

theorem strStartsWith_trans {url p q : String}
    (hpq : p.data.isPrefixOf q.data = true) (h : strStartsWith url q = true) :
    strStartsWith url p = true := by
  unfold strStartsWith at h ⊢
  rw [List.isPrefixOf_iff_prefix] at hpq h ⊢
  exact hpq.trans h

/-- A URL that passes `read_documentation`'s validation also passes
`fetch_url`'s. -/
theorem valid_docs_valid_domain {url : String}
    (h : (strStartsWith url "https://kubernetes.io/docs" ||
          strStartsWith url "http://kubernetes.io/docs") = true) :
    (strStartsWith url "https://kubernetes.io" ||
     strStartsWith url "http://kubernetes.io") = true := by
  rcases Bool.or_eq_true_iff.mp h with h1 | h1
  · exact Bool.or_eq_true_iff.mpr (Or.inl (strStartsWith_trans (by decide) h1))
  · exact Bool.or_eq_true_iff.mpr (Or.inr (strStartsWith_trans (by decide) h1))

/-- Cache hit: the stored content is returned with no state change and
no network call. -/
theorem fetch_url_hit (net : String → String) (url : String) (st : FetchState) (c : String)
    (hv : (strStartsWith url "https://kubernetes.io" ||
           strStartsWith url "http://kubernetes.io") = true)
    (hc : lookupCache (get_cache_path url) st.cache = some c) :
    fetch_url net url st = .ok (c, st) := by
  unfold fetch_url
  rw [hv]
  simp [USE_CACHE, hc]

/-- Cache miss: the network is queried once, the response stored, and
the request logged. -/
theorem fetch_url_miss (net : String → String) (url : String) (st : FetchState)
    (hv : (strStartsWith url "https://kubernetes.io" ||
           strStartsWith url "http://kubernetes.io") = true)
    (hc : lookupCache (get_cache_path url) st.cache = none) :
    fetch_url net url st =
      .ok (net url, ⟨(get_cache_path url, net url) :: st.cache, st.netCalls ++ [url]⟩) := by
  unfold fetch_url
  rw [hv]
  simp [USE_CACHE, hc]

/-- Characterisation of `read_documentation` once `fetch_url` has
succeeded. -/
theorem read_documentation_valid (net : String → String) (titleOf : String → Option String)
    (url : String) (maxl start : Int) (st st1 : FetchState) (html : String)
    (hval : (strStartsWith url "https://kubernetes.io/docs" ||
             strStartsWith url "http://kubernetes.io/docs") = true)
    (hf : fetch_url net url st = .ok (html, st1)) :
    read_documentation net titleOf url maxl start st =
      (.ok { title := match titleOf html with
                      | some t => t
                      | none => String.mk ((pySplitSlash url.data).getLastD [])
             url := url
             content := (paginate (html_to_markdown html) start maxl).1
             start_index := start
             end_index := (paginate (html_to_markdown html) start maxl).2.1
             total_length := (paginate (html_to_markdown html) start maxl).2.2.1
             is_truncated := (paginate (html_to_markdown html) start maxl).2.2.2 }, st1) := by
  unfold read_documentation
  rw [hval, hf]
  simp

theorem pyNorm_eq_toNat {n : Nat} {i : Int} (h0 : 0 ≤ i) (hn : i ≤ (n : Int)) :
    pyNorm n i = i.toNat := by
  unfold pyNorm
  rw [if_neg (by omega)]
  omega

theorem pySlice_data (text : String) (a b : Int) :
    (pySlice text a b).data =
      (text.data.drop (pyNorm text.data.length a)).take
        (pyNorm text.data.length b - pyNorm text.data.length a) := rfl

/-- For in-range non-negative bounds, the Python slice is a plain
drop-and-take. -/
theorem pySlice_of_nonneg {text : String} {a b : Int}
    (h0 : 0 ≤ a) (hab : a ≤ b) (hb : b ≤ (text.data.length : Int)) :
    (pySlice text a b).data = (text.data.drop a.toNat).take (b.toNat - a.toNat) := by
  rw [pySlice_data]
  rw [pyNorm_eq_toNat h0 (le_trans hab hb), pyNorm_eq_toNat (le_trans h0 hab) hb]

theorem pySlice_length_of_nonneg {text : String} {a b : Int}
    (h0 : 0 ≤ a) (hab : a ≤ b) (hb : b ≤ (text.data.length : Int)) :
    (pySlice text a b).data.length = b.toNat - a.toNat := by
  rw [pySlice_of_nonneg h0 hab hb]
  rw [List.length_take, List.length_drop]
  omega

/-- When the start is at or past the end of the text, the slice up to
the text's length is empty. -/
theorem pySlice_empty_of_ge {text : String} {a : Int}
    (h0 : 0 ≤ a) (ha : (text.data.length : Int) ≤ a) :
    pySlice text a (text.data.length : Int) = "" := by
  have hdata : (pySlice text a (text.data.length : Int)).data = [] := by
    rw [pySlice_data]
    rw [pyNorm_eq_toNat (by omega) (le_refl _)]
    unfold pyNorm
    rw [if_neg (by omega)]
    have h1 : min a.toNat text.data.length = text.data.length := by omega
    rw [h1]
    simp
  exact String.ext hdata

theorem paginate_end_eq (text : String) (s m : Int) :
    (paginate text s m).2.1 = min (s + m) ((text.data.length : Int)) := rfl

theorem paginate_total_eq (text : String) (s m : Int) :
    (paginate text s m).2.2.1 = (text.data.length : Int) := rfl

theorem paginate_window_eq (text : String) (s m : Int) :
    (paginate text s m).1 = pySlice text s (min (s + m) ((text.data.length : Int))) := rfl

theorem paginate_trunc_eq (text : String) (s m : Int) :
    (paginate text s m).2.2.2 =
      decide (min (s + m) ((text.data.length : Int)) < (text.data.length : Int)) := rfl

theorem takeLazy_self {close : List Char} (h : close ≠ []) :
    takeLazy close close = some ([], []) := by
  cases close with
  | nil => exact absurd rfl h
  | cons c cs =>
      unfold takeLazy
      rw [if_pos (List.isPrefixOf_iff_prefix.mpr (List.prefix_refl _))]
      simp

/-- The lazy group before a close tag starting with `<` captures
exactly a `<`-free text. -/
theorem takeLazy_append {close t : List Char} (hcl : close.head? = some '<')
    (ht : ∀ c ∈ t, c ≠ '<') :
    takeLazy close (t ++ close) = some (t, []) := by
  induction t with
  | nil =>
      simpa using takeLazy_self (by rintro rfl; simp at hcl)
  | cons c cs ih =>
      obtain ⟨ds, rfl⟩ : ∃ ds, close = '<' :: ds := by
        cases close with
        | nil => simp at hcl
        | cons d ds =>
            simp only [List.head?_cons, Option.some.injEq] at hcl
            exact ⟨ds, by rw [hcl]⟩
      have hc : c ≠ '<' := ht c (List.mem_cons_self c cs)
      have hpre : ('<' :: ds).isPrefixOf (c :: (cs ++ '<' :: ds)) = false := by
        simp [List.isPrefixOf]
        intro hceq
        exact absurd hceq.symm hc
      rw [List.cons_append]
      simp only [takeLazy]
      rw [if_neg (by simp [hpre])]
      rw [ih (fun x hx => ht x (List.mem_cons_of_mem c hx))]

theorem subPatFuel_nil (m : List Char → Option (List Char × List Char)) (fuel : Nat) :
    subPatFuel m fuel [] = [] := by
  cases fuel <;> rfl

/-- A substitution pass whose matcher consumes the whole input replaces
it outright. -/
theorem subPat_all {m : List Char → Option (List Char × List Char)} {s t : List Char}
    (hs : s ≠ []) (h : m s = some (t, [])) : subPat m s = t := by
  cases s with
  | nil => exact absurd rfl hs
  | cons c cs =>
      show subPatFuel m (c :: cs).length (c :: cs) = t
      rw [List.length_cons]
      simp only [subPatFuel, h]
      exact List.append_nil t

/-- `matchTag` on input consisting of exactly one attribute-free tag
pair around a `<`-free body captures the body and consumes everything. -/
theorem matchTag_exact {opn close t : List Char} (hcl : close.head? = some '<')
    (ht : ∀ c ∈ t, c ≠ '<') :
    matchTag opn close (opn ++ '>' :: (t ++ close)) = some (t, []) := by
  unfold matchTag
  rw [if_pos (List.isPrefixOf_iff_prefix.mpr ⟨'>' :: (t ++ close), rfl⟩)]
  rw [List.drop_left]
  have hdrop : dropTag ('>' :: (t ++ close)) = some (t ++ close) := by
    simp [dropTag]
  rw [hdrop]
  exact takeLazy_append hcl ht

/-- One heading level rewritten as the source's regex does, for a
single-digit level and a body free of `<`. -/
theorem headingPass_single (i : Nat) (d : Char) (t : List Char)
    (hd : toString i = String.mk [d]) (ht : ∀ c ∈ t, c ≠ '<') :
    headingPass i (("<h" ++ toString i ++ ">").data ++ t ++ ("</h" ++ toString i ++ ">").data) =
      List.replicate i '#' ++ ' ' :: (t ++ ['\n', '\n']) := by
  unfold headingPass tagSub
  rw [hd]
  have hshape :
      ("<h" ++ String.mk [d] ++ ">").data ++ t ++ ("</h" ++ String.mk [d] ++ ">").data =
        ('<' :: 'h' :: [d]) ++ '>' :: (t ++ ('<' :: '/' :: 'h' :: d :: '>' :: [])) := by
    simp [String.data_append]
  have hopen : ("<h" ++ String.mk [d]).data = '<' :: 'h' :: [d] := by
    simp [String.data_append]
  have hclose : ("</h" ++ String.mk [d] ++ ">").data = '<' :: '/' :: 'h' :: d :: '>' :: [] := by
    simp [String.data_append]
  rw [hshape, hopen, hclose]
  apply subPat_all (by simp)
  rw [matchTag_exact (by rfl) ht]
  rfl

theorem dispatchOne_tool_name {V O : Type}
    (reg : String → Option ((String → Option V) → Except String O)) (c : ToolCall V) :
    (dispatchOne reg c).tool_name = c.name := by
  unfold dispatchOne
  cases reg c.name with
  | none => rfl
  | some f =>
      dsimp only
      cases f (paramsDict c.parameters) <;> rfl

theorem dispatchOne_excl {V O : Type}
    (reg : String → Option ((String → Option V) → Except String O)) (c : ToolCall V) :
    ¬((dispatchOne reg c).output.isSome = true ∧ (dispatchOne reg c).error.isSome = true) := by
  unfold dispatchOne
  cases reg c.name with
  | none => simp
  | some f =>
      dsimp only
      cases f (paramsDict c.parameters) <;> simp

theorem handle_tool_call_getD {V O : Type}
    (reg : String → Option ((String → Option V) → Except String O))
    (calls : List (ToolCall V)) (i : Nat) (hi : i < calls.length) :
    (handle_tool_call reg calls).getD i ⟨"", none, none⟩ =
      dispatchOne reg (calls.getD i ⟨"", []⟩) := by
  unfold handle_tool_call
  rw [List.getD_eq_getElem?_getD, List.getD_eq_getElem?_getD, List.getElem?_map]
  rw [List.getElem?_eq_getElem hi]
  rfl

/-- Characterisation of every non-error `read_documentation` result:
its pagination fields are computed from some markdown text by the
`paginate` step. -/
theorem read_documentation_ok {net : String → String} {titleOf : String → Option String}
    {url : String} {maxl start : Int} {st st' : FetchState} {r : DocumentationResult}
    (h : read_documentation net titleOf url maxl start st = (.ok r, st')) :
    ∃ md : String,
      r.start_index = start ∧
      r.total_length = (md.data.length : Int) ∧
      r.end_index = min (start + maxl) ((md.data.length : Int)) ∧
      r.content = pySlice md start r.end_index ∧
      r.is_truncated = decide (r.end_index < r.total_length) := by
  unfold read_documentation at h
  by_cases hval : (strStartsWith url "https://kubernetes.io/docs" ||
      strStartsWith url "http://kubernetes.io/docs") = true
  · rw [hval] at h
    rw [if_neg (by simp)] at h
    rcases hf : fetch_url net url st with e | p
    · rw [hf] at h
      simp at h
    · obtain ⟨html, st1⟩ := p
      rw [hf] at h
      simp only [Prod.mk.injEq, Except.ok.injEq] at h
      obtain ⟨hr, hst⟩ := h
      refine ⟨html_to_markdown html, ?_, ?_, ?_, ?_, ?_⟩ <;> rw [← hr] <;> dsimp only
      · rfl
      · exact paginate_end_eq _ _ _
      · rw [paginate_window_eq, paginate_end_eq]
      · rw [paginate_trunc_eq, paginate_end_eq, paginate_total_eq]
  · have hv' : (strStartsWith url "https://kubernetes.io/docs" ||
        strStartsWith url "http://kubernetes.io/docs") = false := by
      cases hab : (strStartsWith url "https://kubernetes.io/docs" ||
          strStartsWith url "http://kubernetes.io/docs") with
      | true => exact absurd hab hval
      | false => rfl
    rw [hv'] at h
    simp at h

/-! ## Claims -/

/-- C1 (amended): the URL checks are literal string-prefix checks, not
host parsing.  `read_documentation` returns the structured error
`"URL must be from kubernetes.io/docs domain"`, with no fetch and no
state change, exactly when the URL lacks both prefixes
`https://kubernetes.io/docs` and `http://kubernetes.io/docs`; `fetch_url`
raises `ValueError("URL must be from kubernetes.io domain: <url>")`
before touching cache or network exactly when the URL lacks both
prefixes `https://kubernetes.io` and `http://kubernetes.io`. -/
theorem c1_prefix_validation :
    (∀ (net : String → String) (titleOf : String → Option String) (url : String)
       (maxl start : Int) (st : FetchState),
       strStartsWith url "https://kubernetes.io/docs" = false →
       strStartsWith url "http://kubernetes.io/docs" = false →
       read_documentation net titleOf url maxl start st =
         (.error "URL must be from kubernetes.io/docs domain", st)) ∧
    (∀ (net : String → String) (url : String) (st : FetchState),
       strStartsWith url "https://kubernetes.io" = false →
       strStartsWith url "http://kubernetes.io" = false →
       fetch_url net url st =
         .error ("URL must be from kubernetes.io domain: " ++ url)) := by
  constructor
  · intro net titleOf url maxl start st h1 h2
    unfold read_documentation
    rw [h1, h2]
    rfl
  · intro net url st h1 h2
    unfold fetch_url
    rw [h1, h2]
    rfl

/-- C1 witness: the spec's own example `https://evil.io/docs/x` is
rejected by both functions with no fetch and no state change. -/
theorem c1_witness :
    read_documentation (fun _ => "PAGE") (fun _ => none) "https://evil.io/docs/x"
        5000 0 ⟨[], []⟩ =
      (.error "URL must be from kubernetes.io/docs domain", ⟨[], []⟩) ∧
    fetch_url (fun _ => "PAGE") "https://evil.io/docs/x" ⟨[], []⟩ =
      .error ("URL must be from kubernetes.io domain: " ++ "https://evil.io/docs/x") :=
  ⟨c1_prefix_validation.1 (fun _ => "PAGE") (fun _ => none) "https://evil.io/docs/x"
      5000 0 ⟨[], []⟩ (by decide) (by decide),
   c1_prefix_validation.2 (fun _ => "PAGE") "https://evil.io/docs/x" ⟨[], []⟩
      (by decide) (by decide)⟩

/-- C1 counterexample: `https://kubernetes.iox/docs/x` has host
`kubernetes.iox`, not the documentation host, yet `fetch_url` accepts it
(the prefix check passes) and performs a network request instead of
raising `InvalidDomain`. -/
theorem c1_counterexample :
    specUrlHost "https://kubernetes.iox/docs/x" ≠ "kubernetes.io" ∧
    fetch_url (fun _ => "PAGE") "https://kubernetes.iox/docs/x" ⟨[], []⟩ =
      .ok ("PAGE", ⟨[(get_cache_path "https://kubernetes.iox/docs/x", "PAGE")],
                    ["https://kubernetes.iox/docs/x"]⟩) :=
  ⟨by decide, rfl⟩

/-- C2 (amended): negative `start_index` / `max_length` are not
rejected: for a URL passing validation, `read_documentation` returns a
non-error result whose window is computed by Python slice semantics
(negative indices count from the end of the text). -/
theorem c2_no_invalid_argument
    (net : String → String) (titleOf : String → Option String) (url : String)
    (maxl start : Int) (st : FetchState)
    (hval : (strStartsWith url "https://kubernetes.io/docs" ||
             strStartsWith url "http://kubernetes.io/docs") = true)
    (_hneg : start < 0 ∨ maxl < 0) :
    ∃ r st', read_documentation net titleOf url maxl start st = (.ok r, st') ∧
      r.start_index = start ∧
      ∃ md : String,
        r.total_length = (md.data.length : Int) ∧
        r.end_index = min (start + maxl) r.total_length ∧
        r.content = pySlice md start r.end_index := by
  rcases hlc : lookupCache (get_cache_path url) st.cache with _ | c
  · have hf := fetch_url_miss net url st (valid_docs_valid_domain hval) hlc
    rw [read_documentation_valid net titleOf url maxl start st _ (net url) hval hf]
    refine ⟨_, _, rfl, rfl, html_to_markdown (net url), ?_, ?_, ?_⟩ <;> dsimp only
    · rfl
    · rw [paginate_end_eq, paginate_total_eq]
    · rw [paginate_window_eq, paginate_end_eq]
  · have hf := fetch_url_hit net url st c (valid_docs_valid_domain hval) hlc
    rw [read_documentation_valid net titleOf url maxl start st _ c hval hf]
    refine ⟨_, _, rfl, rfl, html_to_markdown c, ?_, ?_, ?_⟩ <;> dsimp only
    · rfl
    · rw [paginate_end_eq, paginate_total_eq]
    · rw [paginate_window_eq, paginate_end_eq]

/-- C2 witness: a call with `start_index = -1` on a five-character page
returns a non-error result. -/
theorem c2_witness :
    (strStartsWith "https://kubernetes.io/docs/x" "https://kubernetes.io/docs" ||
     strStartsWith "https://kubernetes.io/docs/x" "http://kubernetes.io/docs") = true ∧
    ((-1 : Int) < 0 ∨ (5000 : Int) < 0) ∧
    (∃ r st', read_documentation (fun _ => "abcde") (fun _ => some "T")
          "https://kubernetes.io/docs/x" 5000 (-1) ⟨[], []⟩ = (.ok r, st') ∧
        r.start_index = -1 ∧
        ∃ md : String,
          r.total_length = (md.data.length : Int) ∧
          r.end_index = min ((-1 : Int) + 5000) r.total_length ∧
          r.content = pySlice md (-1) r.end_index) :=
  ⟨by decide, Or.inl (by decide),
   c2_no_invalid_argument (fun _ => "abcde") (fun _ => some "T")
      "https://kubernetes.io/docs/x" 5000 (-1) ⟨[], []⟩ (by decide) (Or.inl (by decide))⟩

/-- C2 counterexample: with `start_index = -1` the call does not fail
with `InvalidArgument`; it succeeds and returns the window `"e"`
(Python's `text[-1:5]`). -/
theorem c2_counterexample :
    (-1 : Int) < 0 ∧
    read_documentation (fun _ => "abcde") (fun _ => some "T")
        "https://kubernetes.io/docs/x" 5000 (-1) ⟨[], []⟩ =
      (.ok ⟨"T", "https://kubernetes.io/docs/x", "e", -1, 5, 5, false⟩,
       ⟨[("https___kubernetes_io_docs_x.html", "abcde")],
        ["https://kubernetes.io/docs/x"]⟩) :=
  ⟨by decide, rfl⟩

/-- C3 (amended): every non-error result with non-negative inputs
satisfies `end_index ≤ total_length`; `start_index ≤ end_index` holds
whenever `start_index ≤ total_length`; and whenever
`start_index ≥ total_length` the window is empty and `is_truncated` is
false — but for `start_index > total_length`,
`end_index = total_length < start_index`, so `start_index ≤ end_index`
does not hold in general. -/
theorem c3_pagination_invariants
    (net : String → String) (titleOf : String → Option String) (url : String)
    (maxl start : Int) (st st' : FetchState) (r : DocumentationResult)
    (h0 : 0 ≤ start) (h1 : 0 ≤ maxl)
    (h : read_documentation net titleOf url maxl start st = (.ok r, st')) :
    r.end_index ≤ r.total_length ∧
    (r.start_index ≤ r.total_length → r.start_index ≤ r.end_index) ∧
    (r.total_length ≤ r.start_index → r.content = "" ∧ r.is_truncated = false) := by
  obtain ⟨md, hs, htot, hend, hcontent, htr⟩ := read_documentation_ok h
  refine ⟨?_, ?_, ?_⟩
  · rw [hend, htot]
    exact min_le_right _ _
  · rw [hs, htot, hend]
    intro hle
    omega
  · intro hge
    rw [htot, hs] at hge
    have hEnd : r.end_index = ((md.data.length : Int)) := by rw [hend]; omega
    constructor
    · rw [hcontent, hEnd]
      exact pySlice_empty_of_ge h0 hge
    · rw [htr, hEnd, htot]
      simp

/-- C3 witness: a non-error result at `start_index = 2`,
`max_length = 100` on a five-character page satisfies the amended
invariants. -/
theorem c3_witness :
    (0 : Int) ≤ 2 ∧ (0 : Int) ≤ 100 ∧
    ((⟨"T", "https://kubernetes.io/docs/x", "cde", 2, 5, 5, false⟩ :
        DocumentationResult).end_index ≤
      (⟨"T", "https://kubernetes.io/docs/x", "cde", 2, 5, 5, false⟩ :
        DocumentationResult).total_length ∧
     ((⟨"T", "https://kubernetes.io/docs/x", "cde", 2, 5, 5, false⟩ :
        DocumentationResult).start_index ≤
       (⟨"T", "https://kubernetes.io/docs/x", "cde", 2, 5, 5, false⟩ :
        DocumentationResult).total_length →
      (⟨"T", "https://kubernetes.io/docs/x", "cde", 2, 5, 5, false⟩ :
        DocumentationResult).start_index ≤
       (⟨"T", "https://kubernetes.io/docs/x", "cde", 2, 5, 5, false⟩ :
        DocumentationResult).end_index) ∧
     ((⟨"T", "https://kubernetes.io/docs/x", "cde", 2, 5, 5, false⟩ :
        DocumentationResult).total_length ≤
       (⟨"T", "https://kubernetes.io/docs/x", "cde", 2, 5, 5, false⟩ :
        DocumentationResult).start_index →
      (⟨"T", "https://kubernetes.io/docs/x", "cde", 2, 5, 5, false⟩ :
        DocumentationResult).content = "" ∧
      (⟨"T", "https://kubernetes.io/docs/x", "cde", 2, 5, 5, false⟩ :
        DocumentationResult).is_truncated = false)) :=
  ⟨by decide, by decide,
   c3_pagination_invariants (fun _ => "abcde") (fun _ => some "T")
      "https://kubernetes.io/docs/x" 100 2 ⟨[], []⟩
      ⟨[("https___kubernetes_io_docs_x.html", "abcde")], ["https://kubernetes.io/docs/x"]⟩
      ⟨"T", "https://kubernetes.io/docs/x", "cde", 2, 5, 5, false⟩
      (by decide) (by decide) rfl⟩

/-- C3 counterexample: with `start_index = 10` on a five-character page
the non-error result has `start_index = 10 > 5 = end_index`, refuting
the invariant `start_index ≤ end_index` (the window is indeed empty and
`is_truncated` false). -/
theorem c3_counterexample :
    read_documentation (fun _ => "abcde") (fun _ => some "T")
        "https://kubernetes.io/docs/x" 5000 10 ⟨[], []⟩ =
      (.ok ⟨"T", "https://kubernetes.io/docs/x", "", 10, 5, 5, false⟩,
       ⟨[("https___kubernetes_io_docs_x.html", "abcde")],
        ["https://kubernetes.io/docs/x"]⟩) ∧
    ¬((10 : Int) ≤ (5 : Int)) :=
  ⟨rfl, by decide⟩

/-- C4: for any text and non-negative `start_index ≤ total_length` and
`max_length`, pagination yields
`end_index = min(start_index + max_length, total_length)`, the window
`text[start_index:end_index]` of length `end_index - start_index`, and
`is_truncated = (end_index < total_length)`. -/
theorem c4_pagination_window (text : String) (start maxl : Int)
    (h0 : 0 ≤ start) (h1 : 0 ≤ maxl) (h2 : start ≤ (text.data.length : Int)) :
    (paginate text start maxl).2.1 = min (start + maxl) ((text.data.length : Int)) ∧
    (paginate text start maxl).1.data =
      (text.data.drop start.toNat).take
        ((paginate text start maxl).2.1.toNat - start.toNat) ∧
    (((paginate text start maxl).1.data.length : Int) =
      (paginate text start maxl).2.1 - start) ∧
    (paginate text start maxl).2.2.2 =
      decide ((paginate text start maxl).2.1 < (paginate text start maxl).2.2.1) := by
  have hb : min (start + maxl) ((text.data.length : Int)) ≤ (text.data.length : Int) :=
    min_le_right _ _
  have hab : start ≤ min (start + maxl) ((text.data.length : Int)) := by omega
  refine ⟨paginate_end_eq _ _ _, ?_, ?_, ?_⟩
  · rw [paginate_window_eq, paginate_end_eq]
    exact pySlice_of_nonneg h0 hab hb
  · rw [paginate_window_eq, paginate_end_eq]
    rw [pySlice_length_of_nonneg h0 hab hb]
    omega
  · rw [paginate_trunc_eq, paginate_end_eq, paginate_total_eq]

/-- C4 witness: pagination of `"abcde"` at `start_index = 1`,
`max_length = 2`. -/
theorem c4_witness :
    (0 : Int) ≤ 1 ∧ (0 : Int) ≤ 2 ∧ (1 : Int) ≤ (("abcde" : String).data.length : Int) ∧
    ((paginate "abcde" 1 2).2.1 = min ((1 : Int) + 2) ((("abcde" : String).data.length : Int)) ∧
     (paginate "abcde" 1 2).1.data =
       (("abcde" : String).data.drop (1 : Int).toNat).take
         ((paginate "abcde" 1 2).2.1.toNat - (1 : Int).toNat) ∧
     (((paginate "abcde" 1 2).1.data.length : Int) = (paginate "abcde" 1 2).2.1 - 1) ∧
     (paginate "abcde" 1 2).2.2.2 =
       decide ((paginate "abcde" 1 2).2.1 < (paginate "abcde" 1 2).2.2.1)) :=
  ⟨by decide, by decide, by decide,
   c4_pagination_window "abcde" 1 2 (by decide) (by decide) (by decide)⟩

/-- C5: dispatching a batch of N tool calls produces exactly N results,
the i-th result carries the i-th call's tool name (same order), and no
result has both `output` and `error` populated — for every registry,
hence also when some or all calls fail. -/
theorem c5_batch_shape {V O : Type}
    (reg : String → Option ((String → Option V) → Except String O))
    (calls : List (ToolCall V)) :
    (handle_tool_call reg calls).length = calls.length ∧
    ∀ i, i < calls.length →
      ((handle_tool_call reg calls).getD i ⟨"", none, none⟩).tool_name =
        (calls.getD i ⟨"", []⟩).name ∧
      ¬(((handle_tool_call reg calls).getD i ⟨"", none, none⟩).output.isSome = true ∧
        ((handle_tool_call reg calls).getD i ⟨"", none, none⟩).error.isSome = true) := by
  refine ⟨by simp [handle_tool_call], fun i hi => ?_⟩
  rw [handle_tool_call_getD reg calls i hi]
  exact ⟨dispatchOne_tool_name reg _, dispatchOne_excl reg _⟩

/-- C5 witness: the second result of a two-call batch (one registered
tool, one unknown) carries the second call's name and not both fields. -/
theorem c5_witness :
    ((handle_tool_call regEx [⟨"A", []⟩, ⟨"Z", []⟩]).getD 1 ⟨"", none, none⟩).tool_name =
      (([⟨"A", []⟩, ⟨"Z", []⟩] : List (ToolCall Nat)).getD 1 ⟨"", []⟩).name ∧
    ¬(((handle_tool_call regEx [⟨"A", []⟩, ⟨"Z", []⟩]).getD 1 ⟨"", none, none⟩).output.isSome = true ∧
      ((handle_tool_call regEx [⟨"A", []⟩, ⟨"Z", []⟩]).getD 1 ⟨"", none, none⟩).error.isSome = true) :=
  (c5_batch_shape regEx [⟨"A", []⟩, ⟨"Z", []⟩]).2 1 (by decide)

/-- C6: an unknown tool name yields the result
`error = "Tool '<name>' not found"` with absent output; an exception
raised inside a registered tool yields `error = <message>` with absent
output; dispatch continues either way, as the concrete batch
`[A, B, C]` with `B` throwing shows: the output is
`[result(A), error(B), result(C)]` in order. -/
theorem c6_per_call_errors :
    (∀ (V O : Type) (reg : String → Option ((String → Option V) → Except String O))
       (calls : List (ToolCall V)) (i : Nat), i < calls.length →
       reg ((calls.getD i ⟨"", []⟩).name) = none →
       (handle_tool_call reg calls).getD i ⟨"", none, none⟩ =
         ⟨(calls.getD i ⟨"", []⟩).name, none,
          some ("Tool '" ++ (calls.getD i ⟨"", []⟩).name ++ "' not found")⟩) ∧
    (∀ (V O : Type) (reg : String → Option ((String → Option V) → Except String O))
       (calls : List (ToolCall V)) (i : Nat)
       (f : (String → Option V) → Except String O) (e : String), i < calls.length →
       reg ((calls.getD i ⟨"", []⟩).name) = some f →
       f (paramsDict ((calls.getD i ⟨"", []⟩).parameters)) = .error e →
       (handle_tool_call reg calls).getD i ⟨"", none, none⟩ =
         ⟨(calls.getD i ⟨"", []⟩).name, none, some e⟩) ∧
    handle_tool_call regEx [⟨"A", []⟩, ⟨"B", []⟩, ⟨"C", []⟩] =
      [⟨"A", some "ra", none⟩, ⟨"B", none, some "boom"⟩, ⟨"C", some "rc", none⟩] := by
  refine ⟨?_, ?_, by decide⟩
  · intro V O reg calls i hi hreg
    rw [handle_tool_call_getD reg calls i hi]
    unfold dispatchOne
    rw [hreg]
  · intro V O reg calls i f e hi hreg hf
    rw [handle_tool_call_getD reg calls i hi]
    unfold dispatchOne
    rw [hreg]
    dsimp only
    rw [hf]

/-- C6 witness: an unknown tool `X` and a throwing tool `B`, each
dispatched to the documented error result. -/
theorem c6_witness :
    (handle_tool_call regEx [⟨"X", []⟩]).getD 0 ⟨"", none, none⟩ =
      ⟨"X", none, some ("Tool '" ++ "X" ++ "' not found")⟩ ∧
    (handle_tool_call regEx [⟨"B", []⟩]).getD 0 ⟨"", none, none⟩ =
      ⟨"B", none, some "boom"⟩ :=
  ⟨c6_per_call_errors.1 Nat String regEx [⟨"X", []⟩] 0 (by decide) rfl,
   c6_per_call_errors.2.1 Nat String regEx [⟨"B", []⟩] 0
      (fun _ => .error "boom") "boom" (by decide) rfl rfl⟩

/-- C7: cache round-trip.  For a URL passing validation, if its cache
key is absent then the first fetch queries the network once (logging
exactly one request) and the second fetch returns the same content with
no further state change and no network call; and whenever a cache entry
exists for the key, fetch returns it with the state unchanged (no
network I/O). -/
theorem c7_cache_round_trip (net : String → String) (url : String) (st : FetchState)
    (hv : (strStartsWith url "https://kubernetes.io" ||
           strStartsWith url "http://kubernetes.io") = true) :
    (lookupCache (get_cache_path url) st.cache = none →
       fetch_url net url st =
         .ok (net url,
              ⟨(get_cache_path url, net url) :: st.cache, st.netCalls ++ [url]⟩) ∧
       fetch_url net url
           ⟨(get_cache_path url, net url) :: st.cache, st.netCalls ++ [url]⟩ =
         .ok (net url,
              ⟨(get_cache_path url, net url) :: st.cache, st.netCalls ++ [url]⟩)) ∧
    (∀ c, lookupCache (get_cache_path url) st.cache = some c →
       fetch_url net url st = .ok (c, st)) := by
  constructor
  · intro hmiss
    refine ⟨fetch_url_miss net url st hv hmiss, ?_⟩
    exact fetch_url_hit net url _ (net url) hv (lookupCache_cons_self _ _ _)
  · intro c hc
    exact fetch_url_hit net url st c hv hc

/-- C7 witness: two fetches of the same pods page from an empty cache —
one logged network request, identical content, unchanged state on the
second call. -/
theorem c7_witness :
    fetch_url (fun _ => "PAGE") "https://kubernetes.io/docs/concepts/pods/" ⟨[], []⟩ =
      .ok ("PAGE",
           ⟨[(get_cache_path "https://kubernetes.io/docs/concepts/pods/", "PAGE")],
            ["https://kubernetes.io/docs/concepts/pods/"]⟩) ∧
    fetch_url (fun _ => "PAGE") "https://kubernetes.io/docs/concepts/pods/"
        ⟨[(get_cache_path "https://kubernetes.io/docs/concepts/pods/", "PAGE")],
         ["https://kubernetes.io/docs/concepts/pods/"]⟩ =
      .ok ("PAGE",
           ⟨[(get_cache_path "https://kubernetes.io/docs/concepts/pods/", "PAGE")],
            ["https://kubernetes.io/docs/concepts/pods/"]⟩) :=
  (c7_cache_round_trip (fun _ => "PAGE") "https://kubernetes.io/docs/concepts/pods/"
      ⟨[], []⟩ (by decide)).1 rfl

/-- C8 (amended): for every successfully fetched page, `title` equals
the document's title element text when one is present, and otherwise
equals the last `/`-separated segment of the URL — which is the empty
string when the URL ends in `/`, not the last non-empty segment. -/
theorem c8_title_fallback (net : String → String) (titleOf : String → Option String)
    (url : String) (maxl start : Int) (st : FetchState)
    (hval : (strStartsWith url "https://kubernetes.io/docs" ||
             strStartsWith url "http://kubernetes.io/docs") = true)
    (hmiss : lookupCache (get_cache_path url) st.cache = none) :
    ∃ r st', read_documentation net titleOf url maxl start st = (.ok r, st') ∧
      (∀ t, titleOf (net url) = some t → r.title = t) ∧
      (titleOf (net url) = none →
        r.title = String.mk ((pySplitSlash url.data).getLastD [])) := by
  have hf := fetch_url_miss net url st (valid_docs_valid_domain hval) hmiss
  rw [read_documentation_valid net titleOf url maxl start st _ (net url) hval hf]
  refine ⟨_, _, rfl, ?_, ?_⟩
  · intro t ht
    dsimp only
    rw [ht]
  · intro ht
    dsimp only
    rw [ht]

/-- C8 witness: a page carrying a title element keeps that title; one
without falls back to the URL's last segment. -/
theorem c8_witness :
    ∃ r st', read_documentation (fun _ => "body") (fun _ => some "K8s Docs")
        "https://kubernetes.io/docs/overview" 5000 0 ⟨[], []⟩ = (.ok r, st') ∧
      (∀ t, (fun (_ : String) => some "K8s Docs") ((fun (_ : String) => "body")
          "https://kubernetes.io/docs/overview") = some t → r.title = t) ∧
      ((fun (_ : String) => some "K8s Docs") ((fun (_ : String) => "body")
          "https://kubernetes.io/docs/overview") = none →
        r.title = String.mk ((pySplitSlash ("https://kubernetes.io/docs/overview" : String).data).getLastD [])) :=
  c8_title_fallback (fun _ => "body") (fun _ => some "K8s Docs")
    "https://kubernetes.io/docs/overview" 5000 0 ⟨[], []⟩ (by decide) rfl

/-- C8 counterexample: for `https://kubernetes.io/docs/concepts/`
(trailing slash) with no title element, the computed title is the empty
string — `url.split('/')[-1]` — not the last non-empty segment
`"concepts"`, refuting that a URL ending in `/` yields a non-empty
title. -/
theorem c8_counterexample :
    read_documentation (fun _ => "x") (fun _ => none)
        "https://kubernetes.io/docs/concepts/" 5000 0 ⟨[], []⟩ =
      (.ok ⟨"", "https://kubernetes.io/docs/concepts/", "x", 0, 1, 1, false⟩,
       ⟨[("https___kubernetes_io_docs_concepts_.html", "x")],
        ["https://kubernetes.io/docs/concepts/"]⟩) ∧
    ("" : String) ≠ "concepts" :=
  ⟨rfl, by decide⟩

/-- C9: each heading pass of the normaliser (applied in descending
level order 6→1) rewrites `<hi>body</hi>` into `i` `#` characters, a
space, the body, and a blank line; in particular the whole normaliser
maps `<h2>Title</h2>` to exactly `"## Title\n\n"`. -/
theorem c9_heading_markdown :
    (∀ (i : Nat) (t : List Char), 1 ≤ i → i ≤ 6 → (∀ c ∈ t, c ≠ '<') →
       headingPass i
           (("<h" ++ toString i ++ ">").data ++ t ++ ("</h" ++ toString i ++ ">").data) =
         List.replicate i '#' ++ ' ' :: (t ++ ['\n', '\n'])) ∧
    html_to_markdown "<h2>Title</h2>" = "## Title\n\n" := by
  constructor
  · intro i t h1 h6 ht
    interval_cases i
    · exact headingPass_single 1 '1' t (by decide) ht
    · exact headingPass_single 2 '2' t (by decide) ht
    · exact headingPass_single 3 '3' t (by decide) ht
    · exact headingPass_single 4 '4' t (by decide) ht
    · exact headingPass_single 5 '5' t (by decide) ht
    · exact headingPass_single 6 '6' t (by decide) ht
  · decide

/-- C9 witness: the level-2 heading pass applied to `<h2>Title</h2>`. -/
theorem c9_witness :
    headingPass 2
        (("<h" ++ toString 2 ++ ">").data ++ "Title".data ++
          ("</h" ++ toString 2 ++ ">").data) =
      List.replicate 2 '#' ++ ' ' :: ("Title".data ++ ['\n', '\n']) :=
  c9_heading_markdown.1 2 "Title".data (by decide) (by decide) (by decide)

/-- C10: the cache key is not injective — the distinct URLs
`.../a-b` and `.../a/b` share one key, so after fetching the first
(storing `PAGE1`), fetching the second returns the first's cached
content `PAGE1` with no network call, although the network would serve
`PAGE2` for it. -/
theorem c10_cache_key_collision :
    ("https://kubernetes.io/docs/a-b" : String) ≠ "https://kubernetes.io/docs/a/b" ∧
    get_cache_path "https://kubernetes.io/docs/a-b" =
      get_cache_path "https://kubernetes.io/docs/a/b" ∧
    fetch_url (fun u => if u = "https://kubernetes.io/docs/a-b" then "PAGE1" else "PAGE2")
        "https://kubernetes.io/docs/a-b" ⟨[], []⟩ =
      .ok ("PAGE1",
           ⟨[(get_cache_path "https://kubernetes.io/docs/a-b", "PAGE1")],
            ["https://kubernetes.io/docs/a-b"]⟩) ∧
    fetch_url (fun u => if u = "https://kubernetes.io/docs/a-b" then "PAGE1" else "PAGE2")
        "https://kubernetes.io/docs/a/b"
        ⟨[(get_cache_path "https://kubernetes.io/docs/a-b", "PAGE1")],
         ["https://kubernetes.io/docs/a-b"]⟩ =
      .ok ("PAGE1",
           ⟨[(get_cache_path "https://kubernetes.io/docs/a-b", "PAGE1")],
            ["https://kubernetes.io/docs/a-b"]⟩) ∧
    (fun u => if u = "https://kubernetes.io/docs/a-b" then "PAGE1" else "PAGE2")
        "https://kubernetes.io/docs/a/b" = "PAGE2" :=
  ⟨by decide, by decide, rfl, rfl, rfl⟩

end K8sDoc
